import Mathlib

/-!
Verification of `pip/_internal/pep425tags.py` (PEP 425 compatibility-tag
generation).  The Python module is shallowly embedded: every function of the
source file that the properties below touch is translated to an executable
Lean definition over an explicit environment record `Env`.  Python exceptions
are modelled by `Option` (a `none` result means the call raised), Python byte
strings by `List Nat`, and the dynamic values returned by
`sysconfig.get_config_var` by `PyVal`.

The vendored generators `packaging.tags.cpython_tags`, `compatible_tags` and
`mac_platforms` are code of the repository that is not part of the given
source tree; the first two are treated as opaque black-box fields of `Env`
(the spec declares them external collaborators with interfaces only) and
`mac_platforms` is modelled from the spec (see its doc comment).
-/

set_option maxRecDepth 4000

/-- A compatibility tag: the `(interpreter, abi, platform)` triple. -/
structure Tag where
  interpreter : String
  abi : String
  platform : String
deriving DecidableEq, Repr

/-- A dynamic value as returned by `sysconfig.get_config_var`: either a string
or an integer (Python booleans are integers). -/
inductive PyVal where
  | str : String → PyVal
  | int : Int → PyVal
deriving DecidableEq, Repr

/-- Python truthiness of an optional config value: `None`, `""` and `0` are
falsy, everything else is truthy. -/
def pyTruthy : Option PyVal → Bool
  | none => false
  | some (PyVal.str s) => s ≠ ""
  | some (PyVal.int n) => n ≠ 0

/-- Python `x or y` where `x` is an optional string and `y` a string:
`None` and `""` select `y`. -/
def pyOrStr : Option String → String → String
  | none, d => d
  | some s, d => if s = "" then d else s

/-- Python `s.replace(c, r)` for one-character patterns (the only use in the
source: replacing `.` and `-` by `_`). -/
def replaceChar (s : String) (c r : Char) : String :=
  String.mk (s.data.map (fun x => if x = c then r else x))

/-- Python `s.split(sep)` for a one-character separator, on character lists.
`"".split('.')` is `[""]`, matching Python. -/
def splitOnChar : List Char → Char → List (List Char)
  | [], _ => [[]]
  | c :: cs, sep =>
    if c = sep then [] :: splitOnChar cs sep
    else
      match splitOnChar cs sep with
      | [] => [[c]]
      | g :: gs => (c :: g) :: gs

/-- Helper for `pyPartition`: locate the first occurrence of the separator. -/
def partitionAux : List Char → Char → Option (List Char × List Char)
  | [], _ => none
  | c :: cs, sep =>
    if c = sep then some ([], cs)
    else
      match partitionAux cs sep with
      | some (a, b) => some (c :: a, b)
      | none => none

/-- Python `s.partition(sep)` for a one-character separator: split at the
first occurrence, or return `(s, "", "")` when the separator is absent. -/
def pyPartition (s : String) (sep : Char) : String × String × String :=
  match partitionAux s.data sep with
  | some (a, b) => (String.mk a, String.mk [sep], String.mk b)
  | none => (s, "", "")

/-- Decimal value of a digit list (used only on all-digit lists). -/
def digitsVal (l : List Char) : Nat :=
  l.foldl (fun a c => a * 10 + (c.toNat - 48)) 0

/-- Python `int()` on the strings this module feeds it: succeeds exactly on
nonempty all-digit strings (the exotic forms `int` also accepts — signs,
underscores between digits, surrounding whitespace — do not occur at the
call sites modelled here). -/
def pyInt (s : String) : Option Nat :=
  if s.data ≠ [] ∧ s.data.all Char.isDigit then some (digitsVal s.data) else none

/-- Python `<` on integer tuples (lexicographic, a strict prefix is smaller),
used for the `sys.version_info < (3, 8)` and `< (3, 3)` tests. -/
def lexLt : List Nat → List Nat → Bool
  | _, [] => false
  | [], _ :: _ => true
  | x :: xs, y :: ys => if x < y then true else if x = y then lexLt xs ys else false

/-- The environment-introspection surface the module reads, made explicit.
The last two fields are the vendored `packaging.tags.cpython_tags` and
`packaging.tags.compatible_tags` generators, which the spec treats as
black-box external collaborators returning tag lists. -/
structure Env where
  config_vars : String → Option PyVal
  interpreter_name : String
  interpreter_version : String
  version_info : List Nat
  pypy_major : Nat
  pypy_minor : Nat
  sys_maxsize : Nat
  sys_platform : String
  mac_release : String
  mac_machine : String
  distutils_platform : String
  executable_bytes : Option (List Nat)
  manylinux1_module : Option Bool
  manylinux2010_module : Option Bool
  manylinux2014_module : Option Bool
  have_compatible_glibc : Nat → Nat → Bool
  has_gettotalrefcount : Bool
  has_maxunicode : Bool
  maxunicode : Nat
  cpython_tags_fn : Option (List Nat) → Option (List String) → Option (List String) → List Tag
  compatible_tags_fn : Option (List Nat) → String → Option (List String) → List Tag

/-- `get_config_var(var)`. -/
def get_config_var (env : Env) (var : String) : Option PyVal :=
  env.config_vars var

/-- `get_flag(var, fallback, expected, warn)`.  The `warn` argument only
controls a debug log line in the source and does not affect the result.
Python compares the looked-up value with `expected` (`True` is the integer
`1`); a string value never equals an integer, per Python `==`. -/
def get_flag (env : Env) (var : String) (fallback : Bool) (expected : Int)
    (warn : Bool) : Bool :=
  match get_config_var env var with
  | none => fallback
  | some (PyVal.int n) => n = expected
  | some (PyVal.str _) => false

/-- `get_impl_version_info()`: `(version_info[0], version_info[1])`, or on
PyPy `(version_info[0], pypy major, pypy minor)`.  `none` models the
`IndexError` raised when `sys.version_info` is too short. -/
def get_impl_version_info (env : Env) : Option (List Nat) :=
  if env.interpreter_name = "pp" then
    match env.version_info.get? 0 with
    | some v0 => some [v0, env.pypy_major, env.pypy_minor]
    | none => none
  else
    match env.version_info.get? 0, env.version_info.get? 1 with
    | some v0, some v1 => some [v0, v1]
    | _, _ => none

/-- `''.join(map(str, t))` for an integer tuple. -/
def joinNats (l : List Nat) : String :=
  String.join (l.map (fun n => toString n))

/-- `get_all_minor_versions_as_strings(version_info)`: all minor versions of
`version_info[-1]` down to `0`, each joined with the leading components.
`none` models the `IndexError` on an empty tuple. -/
def get_all_minor_versions_as_strings (version_info : List Nat) : Option (List String) :=
  match version_info.getLast? with
  | none => none
  | some last =>
    some (((List.range (last + 1)).reverse).map
      (fun minor => joinNats (version_info.dropLast ++ [minor])))

/-- `get_abi_tag()`.  The outer `Option` models exceptions (`none` means the
call raised, which happens only when `SOABI` is a truthy non-string, lacking
the `startswith` attribute); the inner `Option` is the returned
`Optional[str]`. -/
def get_abi_tag (env : Env) : Option (Option String) :=
  let soabi := get_config_var env "SOABI"
  let impl := env.interpreter_name
  if pyTruthy soabi = false ∧ (impl = "cp" ∨ impl = "pp") ∧ env.has_maxunicode = true then
    let is_cpython : Bool := impl = "cp"
    let d := if get_flag env "Py_DEBUG" env.has_gettotalrefcount 1 is_cpython then "d" else ""
    let m := if lexLt env.version_info [3, 8] &&
        get_flag env "WITH_PYMALLOC" is_cpython 1 is_cpython then "m" else ""
    let u := if lexLt env.version_info [3, 3] &&
        get_flag env "Py_UNICODE_SIZE" (env.maxunicode == 1114111) 4 is_cpython then "u" else ""
    some (some (impl ++ env.interpreter_version ++ d ++ m ++ u))
  else if pyTruthy soabi then
    match soabi with
    | some (PyVal.str s) =>
      if ("cpython-".data).isPrefixOf s.data then
        match (splitOnChar s.data '-').get? 1 with
        | some second => some (some ("cp" ++ String.mk second))
        | none => none
      else
        some (some (replaceChar (replaceChar s '.' '_') '-' '_'))
    | _ => none
  else
    some none

/-- `_is_running_32bit()`: `sys.maxsize == 2147483647`. -/
def _is_running_32bit (env : Env) : Bool :=
  env.sys_maxsize == 2147483647

/-- `get_platform()`.  `none` models the `IndexError` raised on macOS when the
release string has fewer than two dot-separated fields. -/
def get_platform (env : Env) : Option String :=
  if env.sys_platform = "darwin" then
    let split_ver := splitOnChar env.mac_release.data '.'
    let machine :=
      if env.mac_machine = "x86_64" ∧ _is_running_32bit env = true then "i386"
      else if env.mac_machine = "ppc64" ∧ _is_running_32bit env = true then "ppc"
      else env.mac_machine
    match split_ver with
    | v0 :: v1 :: _ =>
      some ("macosx_" ++ String.mk v0 ++ "_" ++ String.mk v1 ++ "_" ++ machine)
    | _ => none
  else
    let result := replaceChar (replaceChar env.distutils_platform '.' '_') '-' '_'
    if result = "linux_x86_64" ∧ _is_running_32bit env = true then some "linux_i686"
    else some result

/-- `is_linux_armhf()`.  `env.executable_bytes = none` models the I/O error
branch (caught, yielding `False`); a file shorter than 40 bytes is the short
read.  The result `none` can only come from `get_platform` raising. -/
def is_linux_armhf (env : Env) : Option Bool :=
  (get_platform env).bind (fun p =>
    if p ≠ "linux_armv7l" then some false
    else
      match env.executable_bytes with
      | none => some false
      | some content =>
        let elf_header := content.take 40
        if elf_header.length < 40 then some false
        else some ((elf_header.take 4 == [0x7f, 0x45, 0x4c, 0x46])
          && ((elf_header.drop 4).take 1 == [1])
          && ((elf_header.drop 5).take 1 == [1])
          && ((elf_header.drop 18).take 2 == [0x28, 0])
          && ((elf_header.drop 39).take 1 == [5])
          && (Nat.land ((elf_header.drop 37).headD 0) 4 == 4)))

/-- `is_manylinux1_compatible()`. -/
def is_manylinux1_compatible (env : Env) : Option Bool :=
  (get_platform env).bind (fun p =>
    if p ∉ ["linux_x86_64", "linux_i686"] then some false
    else
      match env.manylinux1_module with
      | some b => some b
      | none => some (env.have_compatible_glibc 2 5))

/-- `is_manylinux2010_compatible()`. -/
def is_manylinux2010_compatible (env : Env) : Option Bool :=
  (get_platform env).bind (fun p =>
    if p ∉ ["linux_x86_64", "linux_i686"] then some false
    else
      match env.manylinux2010_module with
      | some b => some b
      | none => some (env.have_compatible_glibc 2 12))

/-- `is_manylinux2014_compatible()`. -/
def is_manylinux2014_compatible (env : Env) : Option Bool :=
  (get_platform env).bind (fun p =>
    if p ∉ ["linux_x86_64", "linux_i686", "linux_aarch64", "linux_armv7l",
        "linux_ppc64", "linux_ppc64le", "linux_s390x"] then some false
    else if p = "linux_armv7l" then
      (is_linux_armhf env).bind (fun hf =>
        if hf = false then some false
        else
          match env.manylinux2014_module with
          | some b => some b
          | none => some (env.have_compatible_glibc 2 17))
    else
      match env.manylinux2014_module with
      | some b => some b
      | none => some (env.have_compatible_glibc 2 17))

/-- Modelled from the spec: the vendored `packaging.tags.mac_platforms`
generator is code of the repository outside the given source tree.  Per the
spec it "enumerates every macOS baseline-version platform string the given
minimum version satisfies": for minimum version `(major, minor)` it yields
`macosx_<major>_<m>_<arch>` for `m` from `minor` down through the oldest
baseline `0`, same architecture. -/
def mac_platforms (version : Nat × Nat) (arch : String) : List String :=
  ((List.range (version.2 + 1)).reverse).map
    (fun minor => "macosx_" ++ toString version.1 ++ "_" ++ toString minor ++ "_" ++ arch)

/-- Maximal digit prefix of a character list, with the remainder. -/
def digitSpan : List Char → List Char × List Char
  | [] => ([], [])
  | c :: cs =>
    if c.isDigit then
      let r := digitSpan cs
      (c :: r.1, r.2)
    else ([], c :: cs)

/-- After a candidate `(.+)_` split of `_osx_arch_pat`, parse the remainder
as `(\d+)_(\d+)_(.+)`: a maximal digit run, an underscore, a second maximal
digit run, an underscore, and a nonempty tail.  (Because the digit runs are
maximal and followed by exactly `_`, no backtracking inside them can
succeed.) -/
def osxTail (rest : List Char) : Option (List Char × List Char × List Char) :=
  let s1 := digitSpan rest
  if s1.1 = [] then none
  else
    match s1.2 with
    | '_' :: r2 =>
      let s2 := digitSpan r2
      if s2.1 = [] then none
      else
        match s2.2 with
        | '_' :: tail => if tail = [] then none else some (s1.1, s2.1, tail)
        | _ => none
    | _ => none

/-- Backtracking search for `re.match(r'(.+)_(\d+)_(\d+)_(.+)', s)`: the
greedy `(.+)` name group prefers the latest `_` split whose remainder parses,
so later splits are tried before earlier ones.  `revName` is the reversed
name candidate accumulated so far. -/
def osxFrom (revName : List Char) :
    List Char → Option (List Char × List Char × List Char × List Char)
  | [] => none
  | c :: rest =>
    if c = '_' then
      match osxFrom (c :: revName) rest with
      | some r => some r
      | none =>
        if revName = [] then none
        else
          match osxTail rest with
          | some (d1, d2, t) => some (revName.reverse, d1, d2, t)
          | none => none
    else osxFrom (c :: revName) rest

/-- `_osx_arch_pat.match(arch)`: the four groups `(name, major, minor, arch)`
of `(.+)_(\d+)_(\d+)_(.+)`, or `none` when the pattern does not match.
(Newlines, which `.` would not match, do not occur in platform strings.) -/
def osxMatch (s : List Char) : Option (List Char × List Char × List Char × List Char) :=
  osxFrom [] s

/-- `_mac_platforms(arch)`.  `7` is `len('macosx_')`; the comprehension strips
that prefix from each generated platform string and restores the caller's
original prefix `name`. -/
def _mac_platforms (arch : String) : List String :=
  match osxMatch arch.data with
  | some (name, major, minor, actual_arch) =>
    let mac_version := (digitsVal major, digitsVal minor)
    (mac_platforms mac_version (String.mk actual_arch)).map
      (fun a => String.mk name ++ "_" ++ String.mk (a.data.drop 7))
  | none => [arch]

/-- `_custom_manylinux_platforms(arch)`. -/
def _custom_manylinux_platforms (arch : String) : List String :=
  let parts := pyPartition arch '_'
  let arch_prefix := parts.1
  let arch_sep := parts.2.1
  let arch_suffix := parts.2.2
  if arch_prefix = "manylinux2014" then
    if arch_suffix ∈ ["i686", "x86_64"] then
      [arch, "manylinux2010" ++ arch_sep ++ arch_suffix,
        "manylinux1" ++ arch_sep ++ arch_suffix]
    else [arch]
  else if arch_prefix = "manylinux2010" then
    [arch, "manylinux1" ++ arch_sep ++ arch_suffix]
  else [arch]

/-- `_get_custom_platforms(arch, platform)`. -/
def _get_custom_platforms (env : Env) (arch : String) (platform : Option String) :
    Option (List String) :=
  let parts := pyPartition arch '_'
  let arch_sep := parts.2.1
  let arch_suffix := parts.2.2
  if ("macosx".data).isPrefixOf arch.data then
    some (_mac_platforms arch)
  else if parts.1 ∈ ["manylinux2014", "manylinux2010"] then
    some (_custom_manylinux_platforms arch)
  else
    match platform with
    | none =>
      (is_manylinux2014_compatible env).bind (fun b14 =>
        (is_manylinux2010_compatible env).bind (fun b10 =>
          (is_manylinux1_compatible env).bind (fun b1 =>
            some ((if b14 then ["manylinux2014" ++ arch_sep ++ arch_suffix] else [])
              ++ (if b10 then ["manylinux2010" ++ arch_sep ++ arch_suffix] else [])
              ++ (if b1 then ["manylinux1" ++ arch_sep ++ arch_suffix] else [])
              ++ [arch]))))
    | some _ => some [arch]

/-- `_get_python_version(version)`: `(int(version[0]), int(version[1:]))`
when more than one character, else `(int(version[0]),)`.  `none` models the
`ValueError`/`IndexError` on non-digit or empty input. -/
def _get_python_version (version : String) : Option (List Nat) :=
  if version.data.length > 1 then
    (pyInt (String.mk (version.data.take 1))).bind (fun a =>
      (pyInt (String.mk (version.data.drop 1))).bind (fun b =>
        some [a, b]))
  else
    (pyInt (String.mk (version.data.take 1))).bind (fun a =>
      some [a])

/-- `_get_custom_interpreter(implementation, version)` (the `is None` checks
are identity checks, not truthiness). -/
def _get_custom_interpreter (env : Env) (implementation version : Option String) : String :=
  let impl := match implementation with
    | none => env.interpreter_name
    | some s => s
  let ver := match version with
    | none => env.interpreter_version
    | some s => s
  impl ++ ver

/-- The `versions` list of `_generic_tags`: `[version]` when one is supplied,
else every minor version derived from `get_impl_version_info()` (named
subexpression of the source function). -/
def versionsOf (env : Env) (version : Option String) : Option (List String) :=
  match version with
  | none => (get_impl_version_info env).bind get_all_minor_versions_as_strings
  | some v => some [v]

/-- `abi or get_abi_tag()` from `_generic_tags`: Python `or` falls back to
`get_abi_tag()` when the argument is `None` or the empty string. -/
def pyOrGetAbi (env : Env) (abi : Option String) : Option (Option String) :=
  match abi with
  | some a => if a ≠ "" then some (some a) else get_abi_tag env
  | none => get_abi_tag env

/-- `platform or get_platform()` from `_generic_tags`. -/
def pyOrGetPlatform (env : Env) (platform : Option String) : Option String :=
  match platform with
  | some p => if p ≠ "" then some p else get_platform env
  | none => get_platform env

/-- `_generic_tags(version, platform, impl, abi)`, returning the raw string
triples the source builds (converted to `Tag` by `get_supported`). -/
def _generic_tags (env : Env) (version platform impl abi : Option String) :
    Option (List (String × String × String)) :=
  (versionsOf env version).bind (fun versions : List String =>
  versions.head?.bind (fun current_version =>
  (pyOrGetAbi env abi).bind (fun abi2 =>
  let impl2 := pyOrStr impl env.interpreter_name
  let abis := (match abi2 with
    | some a => if a ≠ "" then [a] else []
    | none => []) ++ ["none"]
  (pyOrGetPlatform env platform).bind (fun arch0 =>
  (_get_custom_platforms env arch0 platform).bind (fun arches =>
  some (abis.flatMap (fun ab =>
    arches.map (fun ar => (impl2 ++ current_version, ab, ar)))))))))

/-- The loop body of `_stable_unique_tags`, with the `observed` set made an
explicit list. -/
def stableUniqueAux {α : Type} [DecidableEq α] (observed : List α) : List α → List α
  | [] => []
  | t :: ts =>
    if t ∈ observed then stableUniqueAux observed ts
    else t :: stableUniqueAux (t :: observed) ts

/-- `_stable_unique_tags(tags)`. -/
def _stable_unique_tags (tags : List Tag) : List Tag :=
  stableUniqueAux [] tags

/-- The `python_version` computation of `get_supported`: absent unless a
version override is supplied, in which case it is parsed (and may raise). -/
def pythonVersionOf (version : Option String) : Option (Option (List Nat)) :=
  match version with
  | none => some none
  | some v => (_get_python_version v).map some

/-- The `platforms` computation of `get_supported`: absent unless a platform
override is supplied, in which case it is expanded in explicit mode. -/
def platformsOf (env : Env) (platform : Option String) : Option (Option (List String)) :=
  match platform with
  | none => some none
  | some p => (_get_custom_platforms env p (some p)).map some

/-- `get_supported` up to (but not including) the final de-duplication: the
concatenation of the interpreter-specific (or generic) tags with the
`compatible_tags` output, in source order. -/
def get_supported_pre (env : Env) (version platform impl abi : Option String) :
    Option (List Tag) :=
  (pythonVersionOf version).bind (fun python_version =>
  let interpreter := _get_custom_interpreter env impl version
  let abis := abi.map (fun a => [a])
  (platformsOf env platform).bind (fun platforms =>
  (if pyOrStr impl env.interpreter_name = "cp" then
      some (env.cpython_tags_fn python_version abis platforms)
    else
      (_generic_tags env version platform impl abi).map
        (fun l : List (String × String × String) =>
          l.map (fun t : String × String × String =>
            Tag.mk t.1 t.2.1 t.2.2))).bind (fun base =>
  some (base ++ env.compatible_tags_fn python_version interpreter platforms))))

/-- `get_supported(version, platform, impl, abi)`: the pre-deduplication
sequence passed through `_stable_unique_tags`. -/
def get_supported (env : Env) (version platform impl abi : Option String) :
    Option (List Tag) :=
  (get_supported_pre env version platform impl abi).map _stable_unique_tags

/-- Spec-side formulation of stable de-duplication: keep each element's first
occurrence, delete every later duplicate, preserve order otherwise. -/
def removeEq {α : Type} [DecidableEq α] (t : α) : List α → List α
  | [] => []
  | x :: xs => if x = t then removeEq t xs else x :: removeEq t xs

/-- Spec-side stable de-duplication (first occurrence wins). -/
def dedupKeepFirst {α : Type} [DecidableEq α] : List α → List α
  | [] => []
  | t :: ts => t :: removeEq t (dedupKeepFirst ts)

/-- Drop the elements of a list that occur in `obs` (proof helper relating
`stableUniqueAux` to `dedupKeepFirst`). -/
def filterNotMem {α : Type} [DecidableEq α] (obs : List α) : List α → List α
  | [] => []
  | x :: xs => if x ∈ obs then filterNotMem obs xs else x :: filterNotMem obs xs

/-- A concrete reference environment: CPython 3.8 on 64-bit `linux-x86_64`,
no `SOABI`/flag config vars, all three `_manylinux` marker attributes present
and `False`, glibc check failing, and empty black-box generators. -/
def baseEnv : Env where
  config_vars := fun _ => none
  interpreter_name := "cp"
  interpreter_version := "38"
  version_info := [3, 8, 0]
  pypy_major := 7
  pypy_minor := 3
  sys_maxsize := 9223372036854775807
  sys_platform := "linux"
  mac_release := ""
  mac_machine := ""
  distutils_platform := "linux-x86_64"
  executable_bytes := none
  manylinux1_module := some false
  manylinux2010_module := some false
  manylinux2014_module := some false
  have_compatible_glibc := fun _ _ => false
  has_gettotalrefcount := false
  has_maxunicode := true
  maxunicode := 1114111
  cpython_tags_fn := fun _ _ _ => []
  compatible_tags_fn := fun _ _ _ => []

/-- `baseEnv` with a string-valued `SOABI` build variable set. -/
def envSoabi : Env :=
  { baseEnv with
    config_vars := fun v => if v = "SOABI" then some (PyVal.str "foo.bar") else none }

/-- `baseEnv` for an interpreter lacking the `sys.maxunicode` attribute. -/
def envNoMaxU : Env :=
  { baseEnv with has_maxunicode := false }

/-- `baseEnv` as a 32-bit process on a 64-bit Linux kernel. -/
def env32linux : Env :=
  { baseEnv with sys_maxsize := 2147483647 }

/-- A 32-bit process on 64-bit macOS hardware (Intel). -/
def envMacIntel32 : Env :=
  { baseEnv with
    sys_platform := "darwin"
    mac_release := "10.15.7"
    mac_machine := "x86_64"
    sys_maxsize := 2147483647 }

/-- A 32-bit process on 64-bit macOS hardware (PowerPC). -/
def envMacPpc32 : Env :=
  { baseEnv with
    sys_platform := "darwin"
    mac_release := "10.4.11"
    mac_machine := "ppc64"
    sys_maxsize := 2147483647 }

/-- `baseEnv` with all three `_manylinux` marker attributes set `True`. -/
def envMarkers : Env :=
  { baseEnv with
    manylinux1_module := some true
    manylinux2010_module := some true
    manylinux2014_module := some true }

/-- `baseEnv` with a `compatible_tags` collaborator that repeats a tag the
generic path already produces (to exercise de-duplication). -/
def envDup : Env :=
  { baseEnv with
    compatible_tags_fn := fun _ _ _ => [Tag.mk "zz38" "cp38" "linux_x86_64"] }

theorem string_eta (s : String) : String.mk s.data = s := rfl

theorem partitionAux_pre (sep : Char) (pre rest : List Char) (h : sep ∉ pre) :
    partitionAux (pre ++ sep :: rest) sep = some (pre, rest) := by
  induction pre with
  | nil => simp [partitionAux]
  | cons c cs ih =>
    have hc : ¬(c = sep) := fun hcc => h (hcc ▸ List.mem_cons_self c cs)
    have hcs : sep ∉ cs := fun hm => h (List.mem_cons_of_mem c hm)
    simp only [List.cons_append, partitionAux, if_neg hc, List.append_eq, ih hcs]

theorem pyPartition_split (pre suffix : String) (sep : Char) (h : sep ∉ pre.data) :
    pyPartition (pre ++ String.mk [sep] ++ suffix) sep = (pre, String.mk [sep], suffix) := by
  unfold pyPartition
  rw [String.data_append, String.data_append]
  simp only [List.append_assoc, List.singleton_append]
  rw [partitionAux_pre sep pre.data suffix.data h]

/-- **C1** (counterexample): for architecture suffix `aarch64` the source does
not append any older tier to `manylinux2014_aarch64`, so the claimed
three-element expansion is false for that suffix. -/
theorem c1_counterexample :
    _custom_manylinux_platforms "manylinux2014_aarch64" ≠
      ["manylinux2014_aarch64", "manylinux2010_aarch64", "manylinux1_aarch64"] := by
  decide

/-- **C1** (amended): expanding `manylinux2014_<arch>` appends
`manylinux2010_<arch>` then `manylinux1_<arch>` for the suffixes `i686` and
`x86_64`, and for any other suffix returns the input alone; expanding
`manylinux2010_<arch>` appends `manylinux1_<arch>` for every suffix; and with
an explicit platform override `get_supported` is independent of the
glibc-version check. -/
theorem c1_tier_expansion :
    (∀ suffix : String, suffix ∈ (["i686", "x86_64"] : List String) →
      _custom_manylinux_platforms ("manylinux2014_" ++ suffix) =
        ["manylinux2014_" ++ suffix, "manylinux2010_" ++ suffix,
          "manylinux1_" ++ suffix]) ∧
    (∀ suffix : String, suffix ∉ (["i686", "x86_64"] : List String) →
      _custom_manylinux_platforms ("manylinux2014_" ++ suffix) =
        ["manylinux2014_" ++ suffix]) ∧
    (∀ suffix : String,
      _custom_manylinux_platforms ("manylinux2010_" ++ suffix) =
        ["manylinux2010_" ++ suffix, "manylinux1_" ++ suffix]) ∧
    (∀ (env : Env) (g : Nat → Nat → Bool) (version impl abi : Option String) (p : String),
      get_supported { env with have_compatible_glibc := g } version (some p) impl abi =
        get_supported env version (some p) impl abi) := by
  refine ⟨?_, ?_, ?_, ?_⟩
  · intro suffix hs
    have : suffix = "i686" ∨ suffix = "x86_64" := by simpa using hs
    rcases this with h | h <;> subst h <;> decide
  · intro suffix hs
    have hp : pyPartition ("manylinux2014_" ++ suffix) '_' = ("manylinux2014", "_", suffix) := by
      have e : ("manylinux2014_" : String) ++ suffix =
          "manylinux2014" ++ String.mk ['_'] ++ suffix := rfl
      rw [e, pyPartition_split "manylinux2014" suffix '_' (by decide)]
    unfold _custom_manylinux_platforms
    rw [hp]
    simp only [if_pos rfl]
    rw [if_neg hs]
    rw [if_pos trivial]
  · intro suffix
    have hp : pyPartition ("manylinux2010_" ++ suffix) '_' = ("manylinux2010", "_", suffix) := by
      have e : ("manylinux2010_" : String) ++ suffix =
          "manylinux2010" ++ String.mk ['_'] ++ suffix := rfl
      rw [e, pyPartition_split "manylinux2010" suffix '_' (by decide)]
    unfold _custom_manylinux_platforms
    rw [hp]
    simp only [if_neg (by decide : ¬("manylinux2010" : String) = "manylinux2014"),
      if_pos rfl]
    rfl
  · intro env g version impl abi p
    rfl

/-- **C1** (witness): the amended theorem applied at suffixes `x86_64` and
`aarch64` (both the expanding and the non-expanding 2014 case) and at
`baseEnv` with a glibc check forced `true`. -/
theorem c1_witness :
    _custom_manylinux_platforms ("manylinux2014_" ++ "x86_64") =
      ["manylinux2014_" ++ "x86_64", "manylinux2010_" ++ "x86_64",
        "manylinux1_" ++ "x86_64"] ∧
    _custom_manylinux_platforms ("manylinux2014_" ++ "aarch64") =
      ["manylinux2014_" ++ "aarch64"] ∧
    _custom_manylinux_platforms ("manylinux2010_" ++ "aarch64") =
      ["manylinux2010_" ++ "aarch64", "manylinux1_" ++ "aarch64"] ∧
    get_supported { baseEnv with have_compatible_glibc := fun _ _ => true }
        none (some "manylinux2014_x86_64") none none =
      get_supported baseEnv none (some "manylinux2014_x86_64") none none :=
  ⟨c1_tier_expansion.1 "x86_64" (by decide),
    c1_tier_expansion.2.1 "aarch64" (by decide),
    c1_tier_expansion.2.2.1 "aarch64",
    c1_tier_expansion.2.2.2 baseEnv (fun _ _ => true) none none none "manylinux2014_x86_64"⟩

/-- **C10** (confirmed): a version string of length greater than one is parsed
as `(int of first character, int of the remaining characters)` — `"310"`
gives `(3, 10)`, `"10"` gives `(1, 0)` — and a one-character string gives a
single-element version. -/
theorem c10_version_parsing :
    (∀ version : String, 1 < version.data.length → version.data.all Char.isDigit = true →
      _get_python_version version =
        some [digitsVal (version.data.take 1), digitsVal (version.data.drop 1)]) ∧
    (∀ version : String, version.data.length = 1 → version.data.all Char.isDigit = true →
      _get_python_version version = some [digitsVal version.data]) ∧
    _get_python_version "310" = some [3, 10] ∧
    _get_python_version "10" = some [1, 0] ∧
    _get_python_version "3" = some [3] := by
  have hInt : ∀ (l : List Char), l ≠ [] → l.all Char.isDigit = true →
      pyInt (String.mk l) = some (digitsVal l) := by
    intro l hne hall
    unfold pyInt
    rw [if_pos ⟨hne, hall⟩]
  refine ⟨?_, ?_, by decide, by decide, by decide⟩
  · intro v h1 h2
    have hta : (v.data.take 1).all Char.isDigit = true := by
      rw [List.all_eq_true] at h2 ⊢
      exact fun x hx => h2 x (List.take_subset 1 v.data hx)
    have hda : (v.data.drop 1).all Char.isDigit = true := by
      rw [List.all_eq_true] at h2 ⊢
      exact fun x hx => h2 x (List.drop_subset 1 v.data hx)
    have htn : v.data.take 1 ≠ [] := by
      cases hv : v.data with
      | nil => rw [hv] at h1; simp at h1
      | cons c cs => simp
    have hdn : v.data.drop 1 ≠ [] := by
      cases hv : v.data with
      | nil => rw [hv] at h1; simp at h1
      | cons c cs =>
        rw [hv] at h1
        simp only [List.length_cons] at h1
        simp only [List.drop_succ_cons, List.drop_zero]
        intro hn
        rw [hn] at h1
        simp at h1
    unfold _get_python_version
    rw [if_pos h1]
    simp only [hInt _ htn hta, hInt _ hdn hda, Option.some_bind]
  · intro v h1 h2
    have htn : v.data.take 1 ≠ [] := by
      cases hv : v.data with
      | nil => rw [hv] at h1; simp at h1
      | cons c cs => simp
    have hta : (v.data.take 1).all Char.isDigit = true := by
      rw [List.all_eq_true] at h2 ⊢
      exact fun x hx => h2 x (List.take_subset 1 v.data hx)
    have ht : v.data.take 1 = v.data := List.take_of_length_le (by omega)
    unfold _get_python_version
    rw [if_neg (show ¬(v.data.length > 1) by omega)]
    rw [ht] at hta htn ⊢
    simp only [hInt _ htn hta, Option.some_bind]

theorem headD_take (l : List Nat) (n d : Nat) :
    (l.take (n + 1)).headD d = l.headD d := by
  cases l <;> rfl

theorem land_four (n : Nat) : (Nat.land n 4 = 4) ↔ n.testBit 2 = true := by
  have h : Nat.land n 4 = n &&& 2 ^ 2 := rfl
  rw [h, Nat.and_two_pow]
  cases hb : n.testBit 2 <;> simp [hb]

/-- **C2** (confirmed): `is_linux_armhf` returns `True` exactly when the
platform string is `linux_armv7l`, at least 40 bytes can be read from the
running executable, and all six ELF-header byte checks hold; any I/O error,
short read, or single mismatched byte yields `False`. -/
theorem c2_armhf_probe (env : Env) :
    is_linux_armhf env = some true ↔
      (get_platform env = some "linux_armv7l" ∧
        ∃ content : List Nat, env.executable_bytes = some content ∧
          40 ≤ content.length ∧
          content.take 4 = [0x7f, 0x45, 0x4c, 0x46] ∧
          (content.drop 4).take 1 = [1] ∧
          (content.drop 5).take 1 = [1] ∧
          (content.drop 18).take 2 = [0x28, 0] ∧
          (content.drop 39).take 1 = [5] ∧
          Nat.testBit ((content.drop 37).headD 0) 2 = true) := by
  unfold is_linux_armhf
  cases hp : get_platform env with
  | none => simp
  | some p =>
    simp only [Option.some_bind]
    by_cases hps : p = "linux_armv7l"
    · subst hps
      rw [if_neg (by simp)]
      cases hb : env.executable_bytes with
      | none => simp
      | some content =>
        dsimp only
        by_cases hlen : (content.take 40).length < 40
        · rw [if_pos hlen]
          rw [List.length_take] at hlen
          constructor
          · intro h; exact absurd h (by simp)
          · rintro ⟨-, c, hc, hcl, -⟩
            injection hc with hc
            subst hc
            omega
        · rw [if_neg hlen]
          rw [List.length_take] at hlen
          have h40 : 40 ≤ content.length := by omega
          have e1 : (content.take 40).take 4 = content.take 4 := by
            rw [List.take_take, show (4 ⊓ 40 : Nat) = 4 from by decide]
          have e2 : ((content.take 40).drop 4).take 1 = (content.drop 4).take 1 := by
            rw [List.drop_take, List.take_take, show (1 ⊓ (40 - 4) : Nat) = 1 from by decide]
          have e3 : ((content.take 40).drop 5).take 1 = (content.drop 5).take 1 := by
            rw [List.drop_take, List.take_take, show (1 ⊓ (40 - 5) : Nat) = 1 from by decide]
          have e4 : ((content.take 40).drop 18).take 2 = (content.drop 18).take 2 := by
            rw [List.drop_take, List.take_take, show (2 ⊓ (40 - 18) : Nat) = 2 from by decide]
          have e5 : ((content.take 40).drop 39).take 1 = (content.drop 39).take 1 := by
            rw [List.drop_take, List.take_take, show (1 ⊓ (40 - 39) : Nat) = 1 from by decide]
          have e6 : ((content.take 40).drop 37).headD 0 = (content.drop 37).headD 0 := by
            rw [List.drop_take]
            exact headD_take (content.drop 37) 2 0
          constructor
          · intro h
            injection h with h
            simp only [Bool.and_eq_true, beq_iff_eq] at h
            obtain ⟨⟨⟨⟨⟨h1, h2⟩, h3⟩, h4⟩, h5⟩, h6⟩ := h
            rw [e1] at h1; rw [e2] at h2; rw [e3] at h3
            rw [e4] at h4; rw [e5] at h5; rw [e6] at h6
            exact ⟨rfl, content, rfl, h40,
              h1, h2, h3, h4, h5, (land_four _).mp h6⟩
          · rintro ⟨-, c, hc, -, h1, h2, h3, h4, h5, h6⟩
            injection hc with hc
            subst hc
            congr 1
            simp only [Bool.and_eq_true, beq_iff_eq]
            rw [e1, e2, e3, e4, e5, e6]
            exact ⟨⟨⟨⟨⟨h1, h2⟩, h3⟩, h4⟩, h5⟩, (land_four _).mpr h6⟩
    · rw [if_pos hps]
      constructor
      · intro h; exact absurd h (by simp)
      · rintro ⟨hpp, -⟩
        injection hpp with hpp
        exact absurd hpp hps

/-- **C10** (witness): the general parse shape applied at `"310"`. -/
theorem c10_witness :
    (1 < "310".data.length ∧ "310".data.all Char.isDigit = true) ∧
    _get_python_version "310" =
      some [digitsVal ("310".data.take 1), digitsVal ("310".data.drop 1)] :=
  ⟨by decide, c10_version_parsing.1 "310" (by decide) (by decide)⟩

/-- **C3** (confirmed): each manylinux tier predicate returns `True` only if
the tier's architecture allow-list contains the current platform and either
the `_manylinux` marker attribute says yes, or no marker is present and the
tier's glibc floor check (2.5 / 2.12 / 2.17) passes; tier 2014 on
`linux_armv7l` additionally requires the hard-float probe. -/
theorem c3_tier_predicates :
    (∀ env : Env, is_manylinux1_compatible env = some true →
      ∃ p, get_platform env = some p ∧ p ∈ ["linux_x86_64", "linux_i686"] ∧
        (env.manylinux1_module = some true ∨
          (env.manylinux1_module = none ∧ env.have_compatible_glibc 2 5 = true))) ∧
    (∀ env : Env, is_manylinux2010_compatible env = some true →
      ∃ p, get_platform env = some p ∧ p ∈ ["linux_x86_64", "linux_i686"] ∧
        (env.manylinux2010_module = some true ∨
          (env.manylinux2010_module = none ∧ env.have_compatible_glibc 2 12 = true))) ∧
    (∀ env : Env, is_manylinux2014_compatible env = some true →
      ∃ p, get_platform env = some p ∧
        p ∈ ["linux_x86_64", "linux_i686", "linux_aarch64", "linux_armv7l",
          "linux_ppc64", "linux_ppc64le", "linux_s390x"] ∧
        (p = "linux_armv7l" → is_linux_armhf env = some true) ∧
        (env.manylinux2014_module = some true ∨
          (env.manylinux2014_module = none ∧ env.have_compatible_glibc 2 17 = true))) := by
  refine ⟨?_, ?_, ?_⟩
  · intro env h
    unfold is_manylinux1_compatible at h
    cases hp : get_platform env with
    | none => rw [hp] at h; simp at h
    | some p =>
      rw [hp] at h
      simp only [Option.some_bind] at h
      by_cases hmem : p ∈ (["linux_x86_64", "linux_i686"] : List String)
      · rw [if_neg (not_not_intro hmem)] at h
        refine ⟨p, rfl, hmem, ?_⟩
        cases hm : env.manylinux1_module with
        | none =>
          rw [hm] at h
          injection h with h
          exact Or.inr ⟨rfl, h⟩
        | some b =>
          rw [hm] at h
          injection h with h
          subst h
          exact Or.inl rfl
      · rw [if_pos hmem] at h
        simp at h
  · intro env h
    unfold is_manylinux2010_compatible at h
    cases hp : get_platform env with
    | none => rw [hp] at h; simp at h
    | some p =>
      rw [hp] at h
      simp only [Option.some_bind] at h
      by_cases hmem : p ∈ (["linux_x86_64", "linux_i686"] : List String)
      · rw [if_neg (not_not_intro hmem)] at h
        refine ⟨p, rfl, hmem, ?_⟩
        cases hm : env.manylinux2010_module with
        | none =>
          rw [hm] at h
          injection h with h
          exact Or.inr ⟨rfl, h⟩
        | some b =>
          rw [hm] at h
          injection h with h
          subst h
          exact Or.inl rfl
      · rw [if_pos hmem] at h
        simp at h
  · intro env h
    unfold is_manylinux2014_compatible at h
    cases hp : get_platform env with
    | none => rw [hp] at h; simp at h
    | some p =>
      rw [hp] at h
      simp only [Option.some_bind] at h
      by_cases hmem : p ∈ (["linux_x86_64", "linux_i686", "linux_aarch64",
          "linux_armv7l", "linux_ppc64", "linux_ppc64le", "linux_s390x"] : List String)
      · rw [if_neg (not_not_intro hmem)] at h
        by_cases harm : p = "linux_armv7l"
        · rw [if_pos harm] at h
          cases hhf : is_linux_armhf env with
          | none => rw [hhf] at h; simp at h
          | some hf =>
            rw [hhf] at h
            simp only [Option.some_bind] at h
            cases hf with
            | false => rw [if_pos rfl] at h; simp at h
            | true =>
              rw [if_neg (by simp)] at h
              refine ⟨p, rfl, hmem, fun _ => rfl, ?_⟩
              cases hm : env.manylinux2014_module with
              | none =>
                rw [hm] at h
                injection h with h
                exact Or.inr ⟨rfl, h⟩
              | some b =>
                rw [hm] at h
                injection h with h
                subst h
                exact Or.inl rfl
        · rw [if_neg harm] at h
          refine ⟨p, rfl, hmem, fun hc => absurd hc harm, ?_⟩
          cases hm : env.manylinux2014_module with
          | none =>
            rw [hm] at h
            injection h with h
            exact Or.inr ⟨rfl, h⟩
          | some b =>
            rw [hm] at h
            injection h with h
            subst h
            exact Or.inl rfl
      · rw [if_pos hmem] at h
        simp at h

/-- **C3** (witness): the three implications applied at `envMarkers`, whose
marker module answers `True` for every tier. -/
theorem c3_witness :
    (∃ p, get_platform envMarkers = some p ∧ p ∈ ["linux_x86_64", "linux_i686"] ∧
      (envMarkers.manylinux1_module = some true ∨
        (envMarkers.manylinux1_module = none ∧
          envMarkers.have_compatible_glibc 2 5 = true))) ∧
    (∃ p, get_platform envMarkers = some p ∧ p ∈ ["linux_x86_64", "linux_i686"] ∧
      (envMarkers.manylinux2010_module = some true ∨
        (envMarkers.manylinux2010_module = none ∧
          envMarkers.have_compatible_glibc 2 12 = true))) ∧
    (∃ p, get_platform envMarkers = some p ∧
      p ∈ ["linux_x86_64", "linux_i686", "linux_aarch64", "linux_armv7l",
        "linux_ppc64", "linux_ppc64le", "linux_s390x"] ∧
      (p = "linux_armv7l" → is_linux_armhf envMarkers = some true) ∧
      (envMarkers.manylinux2014_module = some true ∨
        (envMarkers.manylinux2014_module = none ∧
          envMarkers.have_compatible_glibc 2 17 = true))) :=
  ⟨c3_tier_predicates.1 envMarkers (by decide),
    c3_tier_predicates.2.1 envMarkers (by decide),
    c3_tier_predicates.2.2 envMarkers (by decide)⟩

theorem filterNotMem_nil_obs {α : Type} [DecidableEq α] (l : List α) :
    filterNotMem [] l = l := by
  induction l with
  | nil => rfl
  | cons x xs ih => simp [filterNotMem, ih]

theorem filterNotMem_removeEq {α : Type} [DecidableEq α] (t : α) (obs l : List α)
    (h : t ∈ obs) : filterNotMem obs (removeEq t l) = filterNotMem obs l := by
  induction l with
  | nil => rfl
  | cons x xs ih =>
    by_cases hx : x = t
    · subst hx
      simp [removeEq, filterNotMem, h, ih]
    · simp [removeEq, hx, filterNotMem, ih]

theorem filterNotMem_cons_obs {α : Type} [DecidableEq α] (t : α) (obs l : List α) :
    filterNotMem (t :: obs) l = filterNotMem obs (removeEq t l) := by
  induction l with
  | nil => rfl
  | cons x xs ih =>
    by_cases hx : x = t
    · subst hx
      simp [filterNotMem, removeEq, List.mem_cons, ih]
    · by_cases ho : x ∈ obs
      · simp [filterNotMem, removeEq, List.mem_cons, hx, ho, ih]
      · simp [filterNotMem, removeEq, List.mem_cons, hx, ho, ih]

theorem stableUniqueAux_eq {α : Type} [DecidableEq α] (obs l : List α) :
    stableUniqueAux obs l = filterNotMem obs (dedupKeepFirst l) := by
  induction l generalizing obs with
  | nil => rfl
  | cons t ts ih =>
    by_cases ht : t ∈ obs
    · simp only [stableUniqueAux, dedupKeepFirst, filterNotMem, if_pos ht, ih,
        filterNotMem_removeEq t obs _ ht]
    · simp only [stableUniqueAux, dedupKeepFirst, filterNotMem, if_neg ht, ih,
        filterNotMem_cons_obs]

theorem stableUnique_eq_dedupKeepFirst (tags : List Tag) :
    _stable_unique_tags tags = dedupKeepFirst tags := by
  unfold _stable_unique_tags
  rw [stableUniqueAux_eq, filterNotMem_nil_obs]

theorem removeEq_cons {α : Type} [DecidableEq α] (t y : α) (ys : List α) :
    removeEq t (y :: ys) =
      if y = t then removeEq t ys else y :: removeEq t ys := rfl

theorem mem_removeEq_iff {α : Type} [DecidableEq α] (x t : α) (l : List α) :
    x ∈ removeEq t l ↔ (x ∈ l ∧ x ≠ t) := by
  induction l with
  | nil => simp [removeEq]
  | cons y ys ih =>
    by_cases hy : y = t
    · subst hy
      rw [removeEq_cons, if_pos rfl, ih, List.mem_cons]
      constructor
      · rintro ⟨hm, hne⟩; exact ⟨Or.inr hm, hne⟩
      · rintro ⟨hm | hm, hne⟩
        · exact absurd hm hne
        · exact ⟨hm, hne⟩
    · rw [removeEq_cons, if_neg hy, List.mem_cons, List.mem_cons, ih]
      constructor
      · rintro (he | ⟨hm, hne⟩)
        · exact ⟨Or.inl he, fun hxt => hy (he.symm.trans hxt)⟩
        · exact ⟨Or.inr hm, hne⟩
      · rintro ⟨he | hm, hne⟩
        · exact Or.inl he
        · exact Or.inr ⟨hm, hne⟩

theorem nodup_removeEq {α : Type} [DecidableEq α] (t : α) (l : List α)
    (h : l.Nodup) : (removeEq t l).Nodup := by
  induction l with
  | nil => exact h
  | cons y ys ih =>
    rw [List.nodup_cons] at h
    by_cases hy : y = t
    · rw [removeEq, if_pos hy]
      exact ih h.2
    · rw [removeEq, if_neg hy]
      rw [List.nodup_cons]
      exact ⟨fun hm => h.1 ((mem_removeEq_iff y t ys).mp hm).1, ih h.2⟩

theorem nodup_dedupKeepFirst {α : Type} [DecidableEq α] (l : List α) :
    (dedupKeepFirst l).Nodup := by
  induction l with
  | nil => exact List.nodup_nil
  | cons t ts ih =>
    rw [dedupKeepFirst, List.nodup_cons]
    exact ⟨fun hm => ((mem_removeEq_iff t t _).mp hm).2 rfl, nodup_removeEq t _ ih⟩

theorem mem_dedupKeepFirst {α : Type} [DecidableEq α] (x : α) (l : List α) :
    x ∈ dedupKeepFirst l ↔ x ∈ l := by
  induction l with
  | nil => rfl
  | cons t ts ih =>
    rw [dedupKeepFirst, List.mem_cons, List.mem_cons, mem_removeEq_iff, ih]
    by_cases hx : x = t
    · simp [hx]
    · simp [hx]

/-- **C6** (confirmed): whenever `get_supported` returns, its result is the
stable first-occurrence de-duplication of the pre-deduplication tag sequence:
it contains no tag twice, keeps exactly the tags that occur in that sequence,
and keeps each one at its first occurrence (formalised by
`dedupKeepFirst`, which keeps a head and deletes its later duplicates). -/
theorem c6_stable_dedup (env : Env) (version platform impl abi : Option String)
    (pre : List Tag) (h : get_supported_pre env version platform impl abi = some pre) :
    get_supported env version platform impl abi = some (dedupKeepFirst pre) ∧
      (dedupKeepFirst pre).Nodup ∧
      (∀ t : Tag, t ∈ dedupKeepFirst pre ↔ t ∈ pre) := by
  refine ⟨?_, nodup_dedupKeepFirst pre, fun t => mem_dedupKeepFirst t pre⟩
  unfold get_supported
  rw [h]
  show some (_stable_unique_tags pre) = some (dedupKeepFirst pre)
  rw [stableUnique_eq_dedupKeepFirst]

/-- **C6** (witness): at `envDup` the pre-deduplication sequence repeats the
tag `zz38-cp38-linux_x86_64`; the returned sequence keeps only its first
occurrence. -/
theorem c6_witness :
    get_supported_pre envDup none none (some "zz") none =
      some [Tag.mk "zz38" "cp38" "linux_x86_64", Tag.mk "zz38" "none" "linux_x86_64",
        Tag.mk "zz38" "cp38" "linux_x86_64"] ∧
    get_supported envDup none none (some "zz") none =
      some (dedupKeepFirst
        [Tag.mk "zz38" "cp38" "linux_x86_64", Tag.mk "zz38" "none" "linux_x86_64",
          Tag.mk "zz38" "cp38" "linux_x86_64"]) :=
  ⟨by decide,
    (c6_stable_dedup envDup none none (some "zz") none
      [Tag.mk "zz38" "cp38" "linux_x86_64", Tag.mk "zz38" "none" "linux_x86_64",
        Tag.mk "zz38" "cp38" "linux_x86_64"] (by decide)).1⟩

/-- **C8** (confirmed): a 32-bit process sees `linux_x86_64` rewritten to
`linux_i686`; on macOS a 32-bit process has machine `x86_64` rewritten to
`i386` and `ppc64` to `ppc` before the platform string is composed. -/
theorem c8_32bit_downgrade :
    (∀ env : Env, env.sys_platform ≠ "darwin" →
      replaceChar (replaceChar env.distutils_platform '.' '_') '-' '_' = "linux_x86_64" →
      _is_running_32bit env = true →
      get_platform env = some "linux_i686") ∧
    (∀ (env : Env) (v0 v1 : List Char) (rest : List (List Char)),
      env.sys_platform = "darwin" → env.mac_machine = "x86_64" →
      _is_running_32bit env = true →
      splitOnChar env.mac_release.data '.' = v0 :: v1 :: rest →
      get_platform env =
        some ("macosx_" ++ String.mk v0 ++ "_" ++ String.mk v1 ++ "_" ++ "i386")) ∧
    (∀ (env : Env) (v0 v1 : List Char) (rest : List (List Char)),
      env.sys_platform = "darwin" → env.mac_machine = "ppc64" →
      _is_running_32bit env = true →
      splitOnChar env.mac_release.data '.' = v0 :: v1 :: rest →
      get_platform env =
        some ("macosx_" ++ String.mk v0 ++ "_" ++ String.mk v1 ++ "_" ++ "ppc")) := by
  refine ⟨?_, ?_, ?_⟩
  · intro env h1 h2 h3
    unfold get_platform
    rw [if_neg h1]
    show (if replaceChar (replaceChar env.distutils_platform '.' '_') '-' '_' = "linux_x86_64"
          ∧ _is_running_32bit env = true then some "linux_i686"
        else some (replaceChar (replaceChar env.distutils_platform '.' '_') '-' '_')) =
      some "linux_i686"
    rw [if_pos ⟨h2, h3⟩]
  · intro env v0 v1 rest h1 h2 h3 hsplit
    unfold get_platform
    rw [if_pos h1]
    simp only [hsplit, h2]
    rw [if_pos ⟨trivial, h3⟩]
  · intro env v0 v1 rest h1 h2 h3 hsplit
    unfold get_platform
    rw [if_pos h1]
    simp only [hsplit, h2]
    rw [if_neg (show ¬(("ppc64" : String) = "x86_64" ∧ _is_running_32bit env = true) from
      fun hcc => absurd hcc.1 (by decide))]
    rw [if_pos ⟨trivial, h3⟩]

/-- **C8** (witness): the three downgrade cases applied at concrete 32-bit
environments. -/
theorem c8_witness :
    get_platform env32linux = some "linux_i686" ∧
    get_platform envMacIntel32 =
      some ("macosx_" ++ String.mk ['1', '0'] ++ "_" ++ String.mk ['1', '5'] ++ "_" ++ "i386") ∧
    get_platform envMacPpc32 =
      some ("macosx_" ++ String.mk ['1', '0'] ++ "_" ++ String.mk ['4'] ++ "_" ++ "ppc") :=
  ⟨c8_32bit_downgrade.1 env32linux (by decide) (by decide) (by decide),
    c8_32bit_downgrade.2.1 envMacIntel32 ['1', '0'] ['1', '5'] [['7']]
      rfl rfl (by decide) (by decide),
    c8_32bit_downgrade.2.2 envMacPpc32 ['1', '0'] ['4'] [['1', '1']]
      rfl rfl (by decide) (by decide)⟩

/-- **C9** (counterexample): with `SOABI` unset, interpreter family `cp`, but
no `sys.maxunicode` attribute, the source returns no ABI at all instead of
the claimed synthesized `cp<version>` form: the claim misses the
`hasattr(sys, 'maxunicode')` gate. -/
theorem c9_counterexample :
    get_abi_tag envNoMaxU = some none ∧
    envNoMaxU.interpreter_name = "cp" ∧
    pyTruthy (get_config_var envNoMaxU "SOABI") = false := by
  decide

/-- **C9** (amended): ABI resolution priority, with the `sys.maxunicode` gate
the source imposes on the synthesis branch made explicit: a truthy string
`SOABI` starting with `cpython-` gives `cp` + its second dash field; any
other truthy string `SOABI` is normalized (`.`/`-` to `_`); with `SOABI`
absent or falsy, the `cp`/`pp` families (when `sys.maxunicode` exists)
synthesize family + version + `d`/`m`/`u` flags, each probed from build
configuration with a runtime-heuristic fallback; otherwise no ABI is
computed, and then the generic tag path uses only `none`. -/
theorem c9_abi_resolution :
    (∀ (env : Env) (s : String) (second : List Char),
      get_config_var env "SOABI" = some (PyVal.str s) → s ≠ "" →
      ("cpython-".data).isPrefixOf s.data = true →
      (splitOnChar s.data '-').get? 1 = some second →
      get_abi_tag env = some (some ("cp" ++ String.mk second))) ∧
    (∀ (env : Env) (s : String),
      get_config_var env "SOABI" = some (PyVal.str s) → s ≠ "" →
      ("cpython-".data).isPrefixOf s.data = false →
      get_abi_tag env = some (some (replaceChar (replaceChar s '.' '_') '-' '_'))) ∧
    (∀ env : Env, pyTruthy (get_config_var env "SOABI") = false →
      (env.interpreter_name = "cp" ∨ env.interpreter_name = "pp") →
      env.has_maxunicode = true →
      get_abi_tag env = some (some (env.interpreter_name ++ env.interpreter_version
        ++ (if get_flag env "Py_DEBUG" env.has_gettotalrefcount 1
              (env.interpreter_name = "cp") then "d" else "")
        ++ (if lexLt env.version_info [3, 8] &&
              get_flag env "WITH_PYMALLOC" (env.interpreter_name = "cp") 1
                (env.interpreter_name = "cp") then "m" else "")
        ++ (if lexLt env.version_info [3, 3] &&
              get_flag env "Py_UNICODE_SIZE" (env.maxunicode == 1114111) 4
                (env.interpreter_name = "cp") then "u" else "")))) ∧
    (∀ env : Env, pyTruthy (get_config_var env "SOABI") = false →
      ¬((env.interpreter_name = "cp" ∨ env.interpreter_name = "pp") ∧
          env.has_maxunicode = true) →
      get_abi_tag env = some none) ∧
    (∀ (env : Env) (version platform impl : Option String) (tags : List (String × String × String)),
      get_abi_tag env = some none →
      _generic_tags env version platform impl none = some tags →
      ∀ t ∈ tags, t.2.1 = "none") := by
  refine ⟨?_, ?_, ?_, ?_, ?_⟩
  · intro env s second hs hne hpre hsecond
    have htr : pyTruthy (get_config_var env "SOABI") = true := by
      rw [hs]; simp [pyTruthy, hne]
    have hpre2 : (['c', 'p', 'y', 't', 'h', 'o', 'n', '-'] : List Char).isPrefixOf s.data
        = true := hpre
    simp only [get_abi_tag]
    rw [if_neg (fun hcc => by rw [htr] at hcc; exact absurd hcc.1 (by decide))]
    rw [if_pos htr]
    rw [hs]
    dsimp only
    rw [if_pos hpre2, hsecond]
  · intro env s hs hne hpre
    have htr : pyTruthy (get_config_var env "SOABI") = true := by
      rw [hs]; simp [pyTruthy, hne]
    have hpre2 : (['c', 'p', 'y', 't', 'h', 'o', 'n', '-'] : List Char).isPrefixOf s.data
        = false := hpre
    simp only [get_abi_tag]
    rw [if_neg (fun hcc => by rw [htr] at hcc; exact absurd hcc.1 (by decide))]
    rw [if_pos htr]
    rw [hs]
    dsimp only
    rw [if_neg (fun hcc => by rw [hpre2] at hcc; exact absurd hcc (by decide))]
  · intro env h1 h2 h3
    simp only [get_abi_tag]
    rw [if_pos ⟨h1, h2, h3⟩]
  · intro env h1 h4
    simp only [get_abi_tag]
    rw [if_neg (fun hcc => h4 ⟨hcc.2.1, hcc.2.2⟩)]
    rw [if_neg (fun hcc => by rw [h1] at hcc; exact absurd hcc (by decide))]
  · intro env version platform impl tags h1 h2 t ht
    unfold _generic_tags at h2
    rcases Option.bind_eq_some.mp h2 with ⟨versions, hv, h2⟩
    rcases Option.bind_eq_some.mp h2 with ⟨cv, hcv, h2⟩
    rcases Option.bind_eq_some.mp h2 with ⟨abi2, hab, h2⟩
    have hab2 : get_abi_tag env = some abi2 := hab
    rw [h1] at hab2
    injection hab2 with hab2
    subst hab2
    rcases Option.bind_eq_some.mp h2 with ⟨arch0, ha0, h2⟩
    rcases Option.bind_eq_some.mp h2 with ⟨arches, har, h2⟩
    injection h2 with h2
    subst h2
    rcases List.mem_flatMap.mp ht with ⟨ab, habm, htf⟩
    have : ab = "none" := by simpa using habm
    subst this
    rcases List.mem_map.mp htf with ⟨ar, -, rfl⟩
    rfl

/-- **C9** (witness): the normalization branch applied at `envSoabi`, whose
`SOABI` is the string `foo.bar`. -/
theorem c9_witness :
    get_abi_tag envSoabi = some (some (replaceChar (replaceChar "foo.bar" '.' '_') '-' '_')) :=
  c9_abi_resolution.2.1 envSoabi "foo.bar" rfl (by decide) (by decide)

/-- **C4** (counterexample): on an environment that resolves an ABI (here the
default CPython one, whose synthesized ABI is `cp38`), the generic path for
implementation `zz`, version `10` emits a tag with ABI `cp38` before the
`none` one, so not every generic tag has ABI `none`. -/
theorem c4_counterexample :
    get_supported baseEnv (some "10") none (some "zz") none =
      some [Tag.mk "zz10" "cp38" "linux_x86_64", Tag.mk "zz10" "none" "linux_x86_64"] ∧
    (Tag.mk "zz10" "cp38" "linux_x86_64").abi ≠ "none" := by
  decide

/-- **C4** (amended): when the environment resolves no ABI, calling
`get_supported` with implementation `zz`, version `10` and no ABI override
yields exactly the generic tags `('zz10', 'none', <platform>)`, one per
platform of the expanded set in order, followed by the universal-compatible
generator's output, stably de-duplicated; when the environment does resolve
an ABI, the generic ABI priority list is that ABI followed by `none`: the
tags with the resolved ABI (one per platform) precede the `none` tags. -/
theorem c4_generic_fallback :
    (∀ (env : Env) (pl : String) (arches : List String),
      get_abi_tag env = some none →
      get_platform env = some pl →
      _get_custom_platforms env pl none = some arches →
      get_supported env (some "10") none (some "zz") none =
        some (_stable_unique_tags
          ((arches.map (fun ar => Tag.mk "zz10" "none" ar)) ++
            env.compatible_tags_fn (some [1, 0]) "zz10" none))) ∧
    (∀ (env : Env) (ab pl : String) (arches : List String),
      get_abi_tag env = some (some ab) → ab ≠ "" →
      get_platform env = some pl →
      _get_custom_platforms env pl none = some arches →
      get_supported env (some "10") none (some "zz") none =
        some (_stable_unique_tags
          ((arches.map (fun ar => Tag.mk "zz10" ab ar) ++
              arches.map (fun ar => Tag.mk "zz10" "none" ar)) ++
            env.compatible_tags_fn (some [1, 0]) "zz10" none))) := by
  constructor
  · intro env pl arches habi hpl harch
    unfold get_supported get_supported_pre pythonVersionOf platformsOf
    dsimp only
    rw [show _get_python_version "10" = some [1, 0] from by decide]
    simp only [Option.map_some', Option.some_bind]
    rw [if_neg (show ¬pyOrStr (some "zz") env.interpreter_name = "cp" from
      fun hcc => absurd hcc (show ¬(("zz" : String) = "cp") from by decide))]
    unfold _generic_tags versionsOf pyOrGetAbi pyOrGetPlatform
    dsimp only
    simp only [Option.some_bind, List.head?]
    rw [habi]
    simp only [Option.some_bind]
    rw [hpl]
    simp only [Option.some_bind]
    rw [harch]
    simp only [Option.some_bind, Option.map_some', List.flatMap_cons, List.flatMap_nil,
      List.append_nil, List.nil_append, List.map_map]
    rfl
  · intro env ab pl arches habi hne hpl harch
    unfold get_supported get_supported_pre pythonVersionOf platformsOf
    dsimp only
    rw [show _get_python_version "10" = some [1, 0] from by decide]
    simp only [Option.map_some', Option.some_bind]
    rw [if_neg (show ¬pyOrStr (some "zz") env.interpreter_name = "cp" from
      fun hcc => absurd hcc (show ¬(("zz" : String) = "cp") from by decide))]
    unfold _generic_tags versionsOf pyOrGetAbi pyOrGetPlatform
    dsimp only
    simp only [Option.some_bind, List.head?]
    rw [habi]
    simp only [Option.some_bind]
    rw [if_pos hne]
    rw [hpl]
    simp only [Option.some_bind]
    rw [harch]
    simp only [Option.some_bind, Option.map_some', List.cons_append, List.nil_append,
      List.flatMap_cons, List.flatMap_nil, List.append_nil, List.map_map, List.map_append]
    rfl

/-- **C4** (witness): the amended theorem's no-ABI clause at `envNoMaxU`
(whose expanded platform set is `["linux_x86_64"]`) and its resolved-ABI
clause at `baseEnv` (whose synthesized ABI is `cp38`). -/
theorem c4_witness :
    get_supported envNoMaxU (some "10") none (some "zz") none =
      some (_stable_unique_tags
        (((["linux_x86_64"] : List String).map (fun ar => Tag.mk "zz10" "none" ar)) ++
          envNoMaxU.compatible_tags_fn (some [1, 0]) "zz10" none)) ∧
    get_supported baseEnv (some "10") none (some "zz") none =
      some (_stable_unique_tags
        (((["linux_x86_64"] : List String).map (fun ar => Tag.mk "zz10" "cp38" ar) ++
            (["linux_x86_64"] : List String).map (fun ar => Tag.mk "zz10" "none" ar)) ++
          baseEnv.compatible_tags_fn (some [1, 0]) "zz10" none)) :=
  ⟨c4_generic_fallback.1 envNoMaxU "linux_x86_64" ["linux_x86_64"]
      (by decide) (by decide) (by decide),
    c4_generic_fallback.2 baseEnv "cp38" "linux_x86_64" ["linux_x86_64"]
      (by decide) (by decide) (by decide) (by decide)⟩

/-- **C5** (counterexample): a version override that is not a digit string
makes the public entry point raise (`none` models the `ValueError` from
`int('x')`), so `get_supported` is not total over all argument
combinations. -/
theorem c5_counterexample :
    get_supported baseEnv (some "x") none none none = none := by
  decide

theorem armhf_isSome (env : Env) (p : String) (hp : get_platform env = some p) :
    (is_linux_armhf env).isSome = true := by
  unfold is_linux_armhf
  rw [hp, Option.some_bind]
  by_cases h : p ≠ "linux_armv7l"
  · rw [if_pos h]; rfl
  · rw [if_neg h]
    cases env.executable_bytes with
    | none => rfl
    | some content =>
      dsimp only
      by_cases hl : (content.take 40).length < 40
      · rw [if_pos hl]; rfl
      · rw [if_neg hl]; rfl

theorem ml1_isSome (env : Env) (p : String) (hp : get_platform env = some p) :
    (is_manylinux1_compatible env).isSome = true := by
  unfold is_manylinux1_compatible
  rw [hp, Option.some_bind]
  by_cases h : p ∉ (["linux_x86_64", "linux_i686"] : List String)
  · rw [if_pos h]; rfl
  · rw [if_neg h]
    cases env.manylinux1_module <;> rfl

theorem ml2010_isSome (env : Env) (p : String) (hp : get_platform env = some p) :
    (is_manylinux2010_compatible env).isSome = true := by
  unfold is_manylinux2010_compatible
  rw [hp, Option.some_bind]
  by_cases h : p ∉ (["linux_x86_64", "linux_i686"] : List String)
  · rw [if_pos h]; rfl
  · rw [if_neg h]
    cases env.manylinux2010_module <;> rfl

theorem ml2014_isSome (env : Env) (p : String) (hp : get_platform env = some p) :
    (is_manylinux2014_compatible env).isSome = true := by
  unfold is_manylinux2014_compatible
  rw [hp, Option.some_bind]
  by_cases h : p ∉ (["linux_x86_64", "linux_i686", "linux_aarch64", "linux_armv7l",
      "linux_ppc64", "linux_ppc64le", "linux_s390x"] : List String)
  · rw [if_pos h]; rfl
  · rw [if_neg h]
    by_cases ha : p = "linux_armv7l"
    · rw [if_pos ha]
      rcases Option.isSome_iff_exists.mp (armhf_isSome env p hp) with ⟨hf, hhf⟩
      rw [hhf, Option.some_bind]
      by_cases hb : hf = false
      · rw [if_pos hb]; rfl
      · rw [if_neg hb]
        cases env.manylinux2014_module <;> rfl
    · rw [if_neg ha]
      cases env.manylinux2014_module <;> rfl

theorem gcp_isSome (env : Env) (p : String) (hp : get_platform env = some p)
    (arch : String) (pa : Option String) :
    (_get_custom_platforms env arch pa).isSome = true := by
  unfold _get_custom_platforms
  dsimp only
  by_cases h1 : ("macosx".data).isPrefixOf arch.data = true
  · rw [if_pos h1]; rfl
  · rw [if_neg h1]
    by_cases h2 : (pyPartition arch '_').1 ∈ (["manylinux2014", "manylinux2010"] : List String)
    · rw [if_pos h2]; rfl
    · rw [if_neg h2]
      cases pa with
      | some q => rfl
      | none =>
        rcases Option.isSome_iff_exists.mp (ml2014_isSome env p hp) with ⟨b14, h14⟩
        rcases Option.isSome_iff_exists.mp (ml2010_isSome env p hp) with ⟨b10, h10⟩
        rcases Option.isSome_iff_exists.mp (ml1_isSome env p hp) with ⟨b1, h1b⟩
        dsimp only
        rw [h14, Option.some_bind, h10, Option.some_bind, h1b, Option.some_bind]
        rfl

theorem isSome_bind_of {α β : Type} (x : Option α) (f : α → Option β) (a : α)
    (hx : x = some a) (hf : (f a).isSome = true) : (x.bind f).isSome = true := by
  rw [hx, Option.some_bind]
  exact hf

theorem isSome_map {α β : Type} (f : α → β) (x : Option α) :
    (x.map f).isSome = x.isSome := by
  cases x <;> rfl

theorem impl_version_exists (env : Env) (hvi : 2 ≤ env.version_info.length) :
    ∃ vi, get_impl_version_info env = some vi ∧ vi ≠ [] := by
  unfold get_impl_version_info
  cases hev : env.version_info with
  | nil => rw [hev] at hvi; simp at hvi
  | cons a tail =>
    cases tail with
    | nil => rw [hev] at hvi; simp at hvi
    | cons b rest =>
      by_cases hpp : env.interpreter_name = "pp"
      · rw [if_pos hpp]
        exact ⟨[a, env.pypy_major, env.pypy_minor], rfl, by simp⟩
      · rw [if_neg hpp]
        exact ⟨[a, b], rfl, by simp⟩

theorem minor_versions_exists (vi : List Nat) (hne : vi ≠ []) :
    ∃ vs, get_all_minor_versions_as_strings vi = some vs ∧ vs ≠ [] := by
  unfold get_all_minor_versions_as_strings
  rcases Option.isSome_iff_exists.mp (List.getLast?_isSome.mpr hne) with ⟨last, hlast⟩
  rw [hlast]
  refine ⟨_, rfl, ?_⟩
  simp [List.map_eq_nil_iff, List.reverse_eq_nil_iff, List.range_eq_nil]

theorem versionsOf_exists (env : Env) (version : Option String)
    (hvi : 2 ≤ env.version_info.length) :
    ∃ vs, versionsOf env version = some vs ∧ vs ≠ [] := by
  unfold versionsOf
  cases version with
  | none =>
    dsimp only
    rcases impl_version_exists env hvi with ⟨vi, hvi2, hvine⟩
    rw [hvi2, Option.some_bind]
    exact minor_versions_exists vi hvine
  | some v => exact ⟨[v], rfl, by simp⟩

theorem pyOrGetAbi_exists (env : Env) (abi : Option String) (ab : Option String)
    (hab : get_abi_tag env = some ab) :
    ∃ x, pyOrGetAbi env abi = some x := by
  unfold pyOrGetAbi
  cases abi with
  | none => exact ⟨ab, hab⟩
  | some a =>
    dsimp only
    by_cases hae : a ≠ ""
    · rw [if_pos hae]; exact ⟨some a, rfl⟩
    · rw [if_neg hae]; exact ⟨ab, hab⟩

theorem pyOrGetPlatform_exists (env : Env) (platform : Option String) (p : String)
    (hp : get_platform env = some p) :
    ∃ x, pyOrGetPlatform env platform = some x := by
  unfold pyOrGetPlatform
  cases platform with
  | none => exact ⟨p, hp⟩
  | some q =>
    dsimp only
    by_cases hq : q ≠ ""
    · rw [if_pos hq]; exact ⟨q, rfl⟩
    · rw [if_neg hq]; exact ⟨p, hp⟩

theorem generic_isSome (env : Env) (p : String) (ab : Option String)
    (version platform impl abi : Option String)
    (hp : get_platform env = some p) (hab : get_abi_tag env = some ab)
    (hvi : 2 ≤ env.version_info.length) :
    (_generic_tags env version platform impl abi).isSome = true := by
  unfold _generic_tags
  rcases versionsOf_exists env version hvi with ⟨vs, hvs, hvne⟩
  refine isSome_bind_of _ _ vs hvs ?_
  dsimp only
  rcases Option.isSome_iff_exists.mp (List.head?_isSome.mpr hvne) with ⟨cv, hcv⟩
  refine isSome_bind_of _ _ cv hcv ?_
  rcases pyOrGetAbi_exists env abi ab hab with ⟨abi2, hab2⟩
  refine isSome_bind_of _ _ abi2 hab2 ?_
  dsimp only
  rcases pyOrGetPlatform_exists env platform p hp with ⟨arch0, ha0⟩
  refine isSome_bind_of _ _ arch0 ha0 ?_
  rcases Option.isSome_iff_exists.mp (gcp_isSome env p hp arch0 platform) with ⟨arches, harches⟩
  refine isSome_bind_of _ _ arches harches ?_
  rfl

theorem pythonVersionOf_exists (version : Option String)
    (hv : ∀ s, version = some s → (_get_python_version s).isSome = true) :
    ∃ x, pythonVersionOf version = some x := by
  unfold pythonVersionOf
  cases version with
  | none => exact ⟨none, rfl⟩
  | some v =>
    dsimp only
    rcases Option.isSome_iff_exists.mp (hv v rfl) with ⟨q, hq⟩
    rw [hq]
    exact ⟨some q, rfl⟩

theorem platformsOf_exists (env : Env) (platform : Option String) (p : String)
    (hp : get_platform env = some p) :
    ∃ x, platformsOf env platform = some x := by
  unfold platformsOf
  cases platform with
  | none => exact ⟨none, rfl⟩
  | some q =>
    dsimp only
    rcases Option.isSome_iff_exists.mp (gcp_isSome env p hp q (some q)) with ⟨ar, har⟩
    rw [har]
    exact ⟨some ar, rfl⟩

/-- **C5** (amended): the public entry point raises no error — returns a
result — whenever the version override (if supplied) parses, platform
identity derivation succeeds, the ABI lookup does not itself raise, and the
interpreter version tuple has at least two components; a malformed version
override such as `"x"` does raise (see the counterexample). -/
theorem c5_no_raise (env : Env) (version platform impl abi : Option String)
    (hv : ∀ s, version = some s → (_get_python_version s).isSome = true)
    (hp : (get_platform env).isSome = true)
    (ha : (get_abi_tag env).isSome = true)
    (hvi : 2 ≤ env.version_info.length) :
    (get_supported env version platform impl abi).isSome = true := by
  rcases Option.isSome_iff_exists.mp hp with ⟨pl, hpl⟩
  rcases Option.isSome_iff_exists.mp ha with ⟨ab, hab⟩
  unfold get_supported
  rw [isSome_map]
  unfold get_supported_pre
  rcases pythonVersionOf_exists version hv with ⟨pv, hpv⟩
  refine isSome_bind_of _ _ pv hpv ?_
  dsimp only
  rcases platformsOf_exists env platform pl hpl with ⟨plats, hplats⟩
  refine isSome_bind_of _ _ plats hplats ?_
  by_cases hcp : pyOrStr impl env.interpreter_name = "cp"
  · refine isSome_bind_of _ _
      (env.cpython_tags_fn pv (abi.map (fun a => [a])) plats) ?_ rfl
    rw [if_pos hcp]
  · rcases Option.isSome_iff_exists.mp
      (generic_isSome env pl ab version platform impl abi hpl hab hvi) with ⟨g, hg⟩
    refine isSome_bind_of _ _
      (g.map (fun t : String × String × String => Tag.mk t.1 t.2.1 t.2.2)) ?_ rfl
    rw [if_neg hcp, hg]
    rfl

/-- **C5** (witness): the amended totality statement applied at `baseEnv`
with a well-formed version override. -/
theorem c5_witness :
    (get_supported baseEnv (some "310") none none none).isSome = true :=
  c5_no_raise baseEnv (some "310") none none none
    (fun s hs => by injection hs with hs; rw [← hs]; decide)
    (by decide) (by decide) (by decide)

theorem mem_custom_manylinux (arch : String) : arch ∈ _custom_manylinux_platforms arch := by
  unfold _custom_manylinux_platforms
  dsimp only
  by_cases h1 : (pyPartition arch '_').1 = "manylinux2014"
  · rw [if_pos h1]
    by_cases h2 : (pyPartition arch '_').2.2 ∈ (["i686", "x86_64"] : List String)
    · rw [if_pos h2]; exact List.mem_cons_self _ _
    · rw [if_neg h2]; exact List.mem_cons_self _ _
  · rw [if_neg h1]
    by_cases h3 : (pyPartition arch '_').1 = "manylinux2010"
    · rw [if_pos h3]; exact List.mem_cons_self _ _
    · rw [if_neg h3]; exact List.mem_cons_self _ _

theorem digitSpan_append (l : List Char) : (digitSpan l).1 ++ (digitSpan l).2 = l := by
  induction l with
  | nil => rfl
  | cons c cs ih =>
    unfold digitSpan
    by_cases hc : c.isDigit = true
    · rw [if_pos hc]
      dsimp only
      rw [List.cons_append, ih]
    · rw [if_neg hc]
      rfl

theorem osxTail_sound (rest d1 d2 t : List Char) (h : osxTail rest = some (d1, d2, t)) :
    rest = d1 ++ '_' :: (d2 ++ '_' :: t) := by
  unfold osxTail at h
  have hr := digitSpan_append rest
  rcases hd1 : digitSpan rest with ⟨a1, b1⟩
  simp only [hd1] at h hr
  split at h
  · simp at h
  · split at h
    · rename_i r2
      have hr2 := digitSpan_append r2
      rcases hd2 : digitSpan r2 with ⟨a2, b2⟩
      simp only [hd2] at h hr2
      split at h
      · simp at h
      · split at h
        · rename_i tail
          split at h
          · simp at h
          · injection h with h
            rw [Prod.mk.injEq, Prod.mk.injEq] at h
            obtain ⟨e1, e2, e3⟩ := h
            subst e1
            subst e2
            subst e3
            rw [← hr, ← hr2]
        · simp at h
    · simp at h

theorem osxFrom_sound (s : List Char) : ∀ (revName n d1 d2 t : List Char),
    osxFrom revName s = some (n, d1, d2, t) →
    revName.reverse ++ s = n ++ '_' :: (d1 ++ '_' :: (d2 ++ '_' :: t)) := by
  induction s with
  | nil => intro revName n d1 d2 t h; simp [osxFrom] at h
  | cons c cs ih =>
    intro revName n d1 d2 t h
    unfold osxFrom at h
    by_cases hc : c = '_'
    · rw [if_pos hc] at h
      cases hrec : osxFrom (c :: revName) cs with
      | some r =>
        rw [hrec] at h
        dsimp only at h
        injection h with h
        subst h
        have := ih (c :: revName) n d1 d2 t hrec
        rw [List.reverse_cons, List.append_assoc] at this
        simpa using this
      | none =>
        rw [hrec] at h
        dsimp only at h
        split at h
        · simp at h
        · cases ht : osxTail cs with
          | none => rw [ht] at h; simp at h
          | some trip =>
            obtain ⟨td1, td2, tt⟩ := trip
            rw [ht] at h
            dsimp only at h
            injection h with h
            rw [Prod.mk.injEq, Prod.mk.injEq, Prod.mk.injEq] at h
            obtain ⟨e1, e2, e3, e4⟩ := h
            subst e1
            subst e2
            subst e3
            subst e4
            subst hc
            rw [osxTail_sound cs td1 td2 tt ht]
    · rw [if_neg hc] at h
      have := ih (c :: revName) n d1 d2 t h
      rw [List.reverse_cons, List.append_assoc] at this
      simpa using this

theorem osxMatch_sound (s n d1 d2 t : List Char)
    (h : osxMatch s = some (n, d1, d2, t)) :
    s = n ++ '_' :: (d1 ++ '_' :: (d2 ++ '_' :: t)) := by
  have := osxFrom_sound s [] n d1 d2 t h
  simpa using this

theorem mem_mac_platforms (arch : String) (name d1 d2 t : List Char)
    (hm : osxMatch arch.data = some (name, d1, d2, t))
    (h1 : toString (digitsVal d1) = String.mk d1)
    (h2 : toString (digitsVal d2) = String.mk d2) :
    arch ∈ _mac_platforms arch := by
  have harch := osxMatch_sound arch.data name d1 d2 t hm
  have hd1 : (toString (digitsVal d1)).data = d1 := by rw [h1]
  have hd2 : (toString (digitsVal d2)).data = d2 := by rw [h2]
  unfold _mac_platforms
  rw [hm]
  dsimp only
  unfold mac_platforms
  dsimp only
  rw [List.range_succ, List.reverse_append, List.reverse_singleton,
    List.singleton_append, List.map_cons, List.map_cons]
  refine List.mem_cons.mpr (Or.inl ?_)
  symm
  have hdatas : ("macosx_" ++ toString (digitsVal d1) ++ "_" ++ toString (digitsVal d2)
        ++ "_" ++ String.mk t).data
      = "macosx_".data ++ (d1 ++ '_' :: (d2 ++ '_' :: t)) := by
    simp only [String.data_append, hd1, hd2, List.append_assoc, List.singleton_append]
    rfl
  rw [hdatas, List.drop_left' (show ("macosx_".data).length = 7 from rfl)]
  have hmk : String.mk name ++ "_" ++ String.mk (d1 ++ '_' :: (d2 ++ '_' :: t))
      = String.mk ((name ++ ['_']) ++ (d1 ++ '_' :: (d2 ++ '_' :: t))) := rfl
  rw [hmk, List.append_assoc, List.singleton_append]
  conv_rhs => rw [← string_eta arch]
  rw [harch]

/-- **C7** (counterexample): the macOS path re-derives every entry from the
parsed version numbers, so an input with a non-canonical (leading-zero)
version field is not contained in its own expansion. -/
theorem c7_counterexample :
    _get_custom_platforms baseEnv "macosx_010_2_x86_64" none =
      some ["macosx_10_2_x86_64", "macosx_10_1_x86_64", "macosx_10_0_x86_64"] ∧
    "macosx_010_2_x86_64" ∉
      ["macosx_10_2_x86_64", "macosx_10_1_x86_64", "macosx_10_0_x86_64"] := by
  decide

/-- **C7** (amended): for every input that is not macOS-prefixed the
expansion contains the input itself, and in the unqualified path (prefix not
a named manylinux tier, no explicit override) the result is exactly the
compatible tier strings in the order 2014, 2010, 1 followed by the raw input
last; a macOS-prefixed string that fails to parse is returned unchanged as a
singleton; a macOS string that parses is re-derived from the parsed version
numbers, so it is contained in its expansion when its version fields are in
canonical decimal form but need not be otherwise (see the
counterexample). -/
theorem c7_expansion :
    (∀ (env : Env) (arch : String) (pa : Option String) (res : List String),
      ¬(("macosx".data).isPrefixOf arch.data = true) →
      _get_custom_platforms env arch pa = some res →
      arch ∈ res) ∧
    (∀ (env : Env) (arch : String) (pa : Option String),
      ("macosx".data).isPrefixOf arch.data = true →
      osxMatch arch.data = none →
      _get_custom_platforms env arch pa = some [arch]) ∧
    (∀ (env : Env) (arch : String) (res : List String),
      ¬(("macosx".data).isPrefixOf arch.data = true) →
      (pyPartition arch '_').1 ∉ (["manylinux2014", "manylinux2010"] : List String) →
      _get_custom_platforms env arch none = some res →
      ∃ b14 b10 b1 : Bool,
        is_manylinux2014_compatible env = some b14 ∧
        is_manylinux2010_compatible env = some b10 ∧
        is_manylinux1_compatible env = some b1 ∧
        res = (if b14 then ["manylinux2014" ++ (pyPartition arch '_').2.1
                  ++ (pyPartition arch '_').2.2] else [])
          ++ (if b10 then ["manylinux2010" ++ (pyPartition arch '_').2.1
                  ++ (pyPartition arch '_').2.2] else [])
          ++ (if b1 then ["manylinux1" ++ (pyPartition arch '_').2.1
                  ++ (pyPartition arch '_').2.2] else [])
          ++ [arch]) ∧
    (∀ (env : Env) (arch : String) (pa : Option String) (name d1 d2 t : List Char)
        (res : List String),
      ("macosx".data).isPrefixOf arch.data = true →
      osxMatch arch.data = some (name, d1, d2, t) →
      toString (digitsVal d1) = String.mk d1 →
      toString (digitsVal d2) = String.mk d2 →
      _get_custom_platforms env arch pa = some res →
      arch ∈ res) := by
  refine ⟨?_, ?_, ?_, ?_⟩
  · intro env arch pa res h1 hres
    unfold _get_custom_platforms at hres
    dsimp only at hres
    rw [if_neg h1] at hres
    by_cases h2 : (pyPartition arch '_').1 ∈ (["manylinux2014", "manylinux2010"] : List String)
    · rw [if_pos h2] at hres
      injection hres with hres
      rw [← hres]
      exact mem_custom_manylinux arch
    · rw [if_neg h2] at hres
      cases pa with
      | some q =>
        injection hres with hres
        rw [← hres]
        simp
      | none =>
        rcases Option.bind_eq_some.mp hres with ⟨b14, h14, hres⟩
        rcases Option.bind_eq_some.mp hres with ⟨b10, h10, hres⟩
        rcases Option.bind_eq_some.mp hres with ⟨b1, h1b, hres⟩
        injection hres with hres
        rw [← hres]
        simp
  · intro env arch pa h1 hm
    unfold _get_custom_platforms
    dsimp only
    rw [if_pos h1]
    unfold _mac_platforms
    rw [hm]
  · intro env arch res h1 h2 hres
    unfold _get_custom_platforms at hres
    dsimp only at hres
    rw [if_neg h1, if_neg h2] at hres
    rcases Option.bind_eq_some.mp hres with ⟨b14, h14, hres⟩
    rcases Option.bind_eq_some.mp hres with ⟨b10, h10, hres⟩
    rcases Option.bind_eq_some.mp hres with ⟨b1, h1b, hres⟩
    injection hres with hres
    exact ⟨b14, b10, b1, h14, h10, h1b, hres.symm⟩
  · intro env arch pa name d1 d2 t res hpre hm h1 h2 hres
    unfold _get_custom_platforms at hres
    dsimp only at hres
    rw [if_pos hpre] at hres
    injection hres with hres
    rw [← hres]
    exact mem_mac_platforms arch name d1 d2 t hm h1 h2

/-- **C7** (witness): the three amended clauses applied at concrete inputs:
a plain Linux platform contains itself, `macosx_bad` fails to parse and is
returned alone, and at `envMarkers` the probe path lists the tiers in order
2014, 2010, 1 with the raw platform last; additionally a canonical parsed
macOS input is contained in its own expansion. -/
theorem c7_witness :
    "linux_x86_64" ∈ (["linux_x86_64"] : List String) ∧
    _get_custom_platforms baseEnv "macosx_bad" none = some ["macosx_bad"] ∧
    (∃ b14 b10 b1 : Bool,
      is_manylinux2014_compatible envMarkers = some b14 ∧
      is_manylinux2010_compatible envMarkers = some b10 ∧
      is_manylinux1_compatible envMarkers = some b1 ∧
      (["manylinux2014_x86_64", "manylinux2010_x86_64", "manylinux1_x86_64",
          "linux_x86_64"] : List String) =
        (if b14 then ["manylinux2014" ++ (pyPartition "linux_x86_64" '_').2.1
            ++ (pyPartition "linux_x86_64" '_').2.2] else [])
          ++ (if b10 then ["manylinux2010" ++ (pyPartition "linux_x86_64" '_').2.1
            ++ (pyPartition "linux_x86_64" '_').2.2] else [])
          ++ (if b1 then ["manylinux1" ++ (pyPartition "linux_x86_64" '_').2.1
            ++ (pyPartition "linux_x86_64" '_').2.2] else [])
          ++ ["linux_x86_64"]) ∧
    "macosx_10_9_x86_64" ∈
      ["macosx_10_9_x86_64", "macosx_10_8_x86_64", "macosx_10_7_x86_64",
        "macosx_10_6_x86_64", "macosx_10_5_x86_64", "macosx_10_4_x86_64",
        "macosx_10_3_x86_64", "macosx_10_2_x86_64", "macosx_10_1_x86_64",
        "macosx_10_0_x86_64"] :=
  ⟨c7_expansion.1 baseEnv "linux_x86_64" none ["linux_x86_64"] (by decide) (by decide),
    c7_expansion.2.1 baseEnv "macosx_bad" none (by decide) (by decide),
    c7_expansion.2.2.1 envMarkers "linux_x86_64"
      ["manylinux2014_x86_64", "manylinux2010_x86_64", "manylinux1_x86_64", "linux_x86_64"]
      (by decide) (by decide) (by decide),
    c7_expansion.2.2.2 baseEnv "macosx_10_9_x86_64" none
      ['m', 'a', 'c', 'o', 's', 'x'] ['1', '0'] ['9'] ['x', '8', '6', '_', '6', '4']
      ["macosx_10_9_x86_64", "macosx_10_8_x86_64", "macosx_10_7_x86_64",
        "macosx_10_6_x86_64", "macosx_10_5_x86_64", "macosx_10_4_x86_64",
        "macosx_10_3_x86_64", "macosx_10_2_x86_64", "macosx_10_1_x86_64",
        "macosx_10_0_x86_64"]
      (by decide) (by decide) (by decide) (by decide) (by decide)⟩
